import Mathlib

/-!
A shallow embedding of the Netflix-Demo SPA's persistence / auth / wishlist /
fetch / filter logic (src/utils/auth.ts, src/utils/theme.ts,
src/components/ProtectedRoute.tsx, src/hooks/useMovies.ts, useWishlist,
src/pages/SearchPage.tsx, SignInPage), together with theorems settling the
spec claims about it.

Browser storage is modelled by passing the relevant stored values
(`Option String`: `none` = key absent) explicitly; functions that write
return the new stored value.  Host built-ins (`String.prototype.trim`,
`toLowerCase`, `JSON.parse`, `Date.parse`, `Number(...)`) are modelled by
explicit Lean functions or function parameters, as noted at each definition.
JS numbers are modelled as exact rationals.
-/

/-- Models the whitespace test of JS `String.prototype.trim`
(space, tab, newline, carriage return, form feed, vertical tab). -/
def jsIsWs (c : Char) : Bool :=
  c = ' ' || c = '\t' || c = '\n' || c = '\r' || c = '\x0c' || c = '\x0b'

/-- Models JS `String.prototype.trim`: drop leading and trailing whitespace. -/
def jsTrim (s : String) : String :=
  ⟨((s.data.dropWhile jsIsWs).reverse.dropWhile jsIsWs).reverse⟩

/-- Models JS `String.prototype.toLowerCase` (ASCII range, which is all the
embedding needs). -/
def jsToLower (s : String) : String :=
  ⟨s.data.map Char.toLower⟩

/-- A JSON value, as produced by a successful `JSON.parse`. -/
inductive Json where
  | null : Json
  | bool (b : Bool) : Json
  | num (n : ℚ) : Json
  | str (s : String) : Json
  | arr (items : List Json) : Json
  | obj (fields : List (String × Json)) : Json

/-- Models JS optional-chained property access `value?.key`: a field lookup
that yields `none` (undefined) on non-objects and missing fields. -/
def Json.getField : Json → String → Option Json
  | Json.obj fields, key => (fields.find? (fun f => f.1 == key)).map (fun f => f.2)
  | _, _ => none

/-- Models JS truthiness of a possibly-undefined JSON value
(`undefined`, `null`, `false`, `0`, `""` are falsy). -/
def jsTruthy : Option Json → Bool
  | none => false
  | some Json.null => false
  | some (Json.bool b) => b
  | some (Json.num n) => !(decide (n = 0))
  | some (Json.str s) => !(decide (s = ""))
  | some (Json.arr _) => true
  | some (Json.obj _) => true

/-- Models JS `typeof value === 'number'` on a possibly-undefined JSON value. -/
def jsIsNumberJson : Option Json → Bool
  | some (Json.num _) => true
  | _ => false

/-- Models JS `Array.isArray`. -/
def Json.isArr : Json → Bool
  | Json.arr _ => true
  | _ => false

/-- Model of `readUsers` from src/utils/auth.ts.  `parse` models the host `JSON.parse`
(`none` = the parse throws); `raw` is the stored string under the `users` key
(`none` = key absent).  The code returns `[]` when the raw value is falsy,
when parsing throws, or when the parsed value is not an array, and otherwise
keeps only entries with truthy `id` and `password` fields. -/
def readUsers (parse : String → Option Json) (raw : Option String) : List Json :=
  match raw with
  | none => []
  | some s =>
    if s = "" then []
    else
      match parse s with
      | none => []
      | some (Json.arr entries) =>
          entries.filter (fun entry =>
            jsTruthy (entry.getField "id") && jsTruthy (entry.getField "password"))
      | some _ => []

/-- A persisted credential entry (`StoredUser` in src/utils/auth.ts). -/
structure StoredUser where
  id : String
  password : String
deriving DecidableEq, Repr

/-- Result type of `registerUser` ({success:false,message} | {success:true}). -/
inductive RegisterResult where
  | failure (message : String) : RegisterResult
  | success : RegisterResult
deriving DecidableEq, Repr

/-- Model of `registerUser` from src/utils/auth.ts, with the persisted credential
collection passed in (the code reads it via `readUsers`) and the collection
persisted by `saveUsers` returned alongside the result (unchanged when the
function returns early without saving). -/
def registerUser (users : List StoredUser) (email password : String) :
    RegisterResult × List StoredUser :=
  if users.any (fun user => user.id == email) then
    (RegisterResult.failure "That email is already registered.", users)
  else
    (RegisterResult.success, users ++ [⟨email, password⟩])

/-- Result type of `authenticateUser` ({success:false,message} |
{success:true,tmdbKey}). -/
inductive AuthResult where
  | failure (message : String) : AuthResult
  | success (tmdbKey : String) : AuthResult
deriving DecidableEq, Repr

/-- Model of `authenticateUser` from src/utils/auth.ts: finds an entry matching both
id and password exactly and returns its stored password as the key. -/
def authenticateUser (users : List StoredUser) (email password : String) :
    AuthResult :=
  match users.find? (fun user => user.id == email && user.password == password) with
  | none => AuthResult.failure "Invalid credentials provided."
  | some m => AuthResult.success m.password

/-- The identifier normalization performed by SignInPage's submit handlers:
`email.trim().toLowerCase()`. -/
def normalizeEmail (s : String) : String := jsToLower (jsTrim s)

/-- The registration step of `handleSignUp` in SignInPage: the form's email is
normalized (trim + lowercase) and the password trimmed before calling
`registerUser`. -/
def handleSignUpRegister (users : List StoredUser) (email password : String) :
    RegisterResult × List StoredUser :=
  registerUser users (normalizeEmail email) (jsTrim password)

/-- Model of `isLoggedIn` from src/utils/auth.ts: the stored `isLogin` value must read
exactly `"true"`. -/
def isLoggedIn (storedIsLogin : Option String) : Bool :=
  storedIsLogin == some "true"

/-- The access decision of `ProtectedRoute`
(src/components/ProtectedRoute.tsx): `isAuthenticated || isLoggedIn()`,
where `isAuthenticated` is the in-memory AuthContext flag. -/
def protectedRouteAllowed (isAuthenticated : Bool) (storedIsLogin : Option String) :
    Bool :=
  isAuthenticated || isLoggedIn storedIsLogin

/-- A wishlist entry (`WishlistEntry` in useWishlist). -/
structure WishlistEntry where
  id : Int
  title : String
  poster_path : Option String
deriving DecidableEq, Repr

/-- Model of `readWishlist` from useWishlist: same shape as `readUsers`, keeping only
entries whose `id` is a number and whose `title` is truthy. -/
def readWishlist (parse : String → Option Json) (raw : Option String) : List Json :=
  match raw with
  | none => []
  | some s =>
    if s = "" then []
    else
      match parse s with
      | none => []
      | some (Json.arr items) =>
          items.filter (fun item =>
            jsIsNumberJson (item.getField "id") && jsTruthy (item.getField "title"))
      | some _ => []

/-- The state update of `toggleWishlist` in useWishlist: if some entry with
the same id exists, remove every entry with that id; otherwise prepend. -/
def toggleWishlist (current : List WishlistEntry) (entry : WishlistEntry) :
    List WishlistEntry :=
  if current.any (fun item => item.id == entry.id) then
    current.filter (fun item => item.id != entry.id)
  else
    entry :: current

/-- Theme preference values (src/utils/theme.ts). -/
inductive ThemePreference where
  | dark : ThemePreference
  | light : ThemePreference
deriving DecidableEq, Repr

/-- Model of `getStoredTheme` from src/utils/theme.ts.  `canUse` models
`canUseStorage()`; `stored` is the value under the `theme` key.  The result
pairs the returned preference with the `theme` key's value after the call
(the function writes `'dark'` back when the stored value is unrecognized). -/
def getStoredTheme (canUse : Bool) (stored : Option String) :
    ThemePreference × Option String :=
  if !canUse then (ThemePreference.dark, stored)
  else if stored == some "light" then (ThemePreference.light, stored)
  else if stored == some "dark" then (ThemePreference.dark, stored)
  else (ThemePreference.dark, some "dark")

/-- Model of `getStoredTmdbKey` from src/utils/auth.ts: stored value or `''`. -/
def getStoredTmdbKey (stored : Option String) : String := stored.getD ""

/-- A movie record (the `Movie` type of useMovies / SearchPage), with JS
numbers modelled as rationals and optional fields as `Option`. -/
structure Movie where
  id : ℚ
  title : String
  name : Option String
  overview : String
  poster_path : Option String
  release_date : Option String
  vote_average : Option ℚ
  genre_ids : Option (List ℚ)
  popularity : Option ℚ
deriving DecidableEq, Repr

/-- The synchronous outcome of the `useMovies` effect before any response
arrives: either the missing-key early return (which sets movies to `[]`,
loading to `false`, the error message, and issues no network call), or the
start of a fetch with the resolved key. -/
inductive FetchAction where
  | errorOut (movies : List Movie) (loading : Bool) (message : String) : FetchAction
  | startFetch (tmdbKey : String) : FetchAction
deriving DecidableEq

/-- The missing-credential message set by useMovies. -/
def useMoviesMissingKeyMessage : String :=
  "영화를 불러오려면 로그인 화면에서 TMDB 키를 등록해주세요."

/-- The credential-resolution prefix of the `useMovies` effect
(src/hooks/useMovies.ts): `resolvedKey = options?.tmdbKey?.trim() ?? null`,
`tmdbKey = (resolvedKey ?? getStoredTmdbKey()).trim()`; an empty key short
circuits to the error state without a network call. -/
def useMoviesInitialAction (optionsTmdbKey storedTmdbKey : Option String) :
    FetchAction :=
  let resolvedKey := optionsTmdbKey.map jsTrim
  let fallbackKey := getStoredTmdbKey storedTmdbKey
  let tmdbKey := jsTrim (resolvedKey.getD fallbackKey)
  if tmdbKey = "" then
    FetchAction.errorOut [] false useMoviesMissingKeyMessage
  else
    FetchAction.startFetch tmdbKey

/-- The sort option values of SearchPage's comparator table. -/
inductive SortOptionValue where
  | popularity_desc : SortOptionValue
  | popularity_asc : SortOptionValue
  | vote_average_desc : SortOptionValue
  | release_date_desc : SortOptionValue
  | release_date_asc : SortOptionValue
deriving DecidableEq, Repr

/-- The `Filters` state of SearchPage. -/
structure Filters where
  query : String
  genre : String
  rating : ℚ
  year : String
  sort : SortOptionValue

/-- Model of `valueOrZero` from SearchPage: a missing numeric field counts as 0. -/
def valueOrZero (value : Option ℚ) : ℚ := value.getD 0

/-- Model of `releaseDateValue` from SearchPage.  `dateParse` models the host
`Date.parse` (`none` = NaN result); a falsy or unparsable date counts as 0. -/
def releaseDateValue (dateParse : String → Option ℚ) (value : Option String) : ℚ :=
  match value with
  | none => 0
  | some s => if s = "" then 0 else (dateParse s).getD 0

/-- The `comparators` table of SearchPage: each sort option maps to a numeric
JS comparator. -/
def comparators (dateParse : String → Option ℚ) :
    SortOptionValue → Movie → Movie → ℚ
  | SortOptionValue.popularity_desc => fun a b =>
      valueOrZero b.popularity - valueOrZero a.popularity
  | SortOptionValue.popularity_asc => fun a b =>
      valueOrZero a.popularity - valueOrZero b.popularity
  | SortOptionValue.vote_average_desc => fun a b =>
      valueOrZero b.vote_average - valueOrZero a.vote_average
  | SortOptionValue.release_date_desc => fun a b =>
      releaseDateValue dateParse b.release_date - releaseDateValue dateParse a.release_date
  | SortOptionValue.release_date_asc => fun a b =>
      releaseDateValue dateParse a.release_date - releaseDateValue dateParse b.release_date

/-- Model of `applyFilterPipeline` from SearchPage.  `jsNumber` models the host
`Number(...)` conversion applied to the genre string (`none` = NaN, which
matches no genre id); `dateParse` models `Date.parse` inside the release-date
comparators.  The ECMAScript stable `Array.prototype.sort(cmp)` on the
`slice()` copy is modelled by the stable `List.insertionSort` under the
relation `cmp a b ≤ 0`. -/
def applyFilterPipeline (dateParse : String → Option ℚ) (jsNumber : String → Option ℚ)
    (source : List Movie) (filters : Filters) : List Movie :=
  let f1 := if filters.genre = "" then source else
    source.filter (fun movie =>
      match jsNumber filters.genre with
      | none => false
      | some genreId => (movie.genre_ids.getD []).contains genreId)
  let f2 := if filters.rating > 0 then
      f1.filter (fun movie => valueOrZero movie.vote_average ≥ filters.rating)
    else f1
  let f3 := if filters.year = "" then f2 else
    f2.filter (fun movie => (movie.release_date.getD "").startsWith filters.year)
  List.insertionSort (fun a b => comparators dateParse filters.sort a b ≤ 0) f3

/-- The filter spec of the minimum-score scenario: rating threshold 7.0,
descending score sort, no genre/year filter. -/
def minScoreFilters : Filters :=
  ⟨"", "", 7, "", SortOptionValue.vote_average_desc⟩

/-- Concrete wishlist entries used by the toggling-order scenario. -/
def entry5 : WishlistEntry := ⟨5, "Movie five", none⟩

/-- Second concrete wishlist entry of the toggling-order scenario. -/
def entry7 : WishlistEntry := ⟨7, "Movie seven", none⟩

/-- The descending-score sort relation used by the minimum-score scenario:
`cmp a b ≤ 0` for the `vote_average.desc` comparator. -/
def scoreDescRel (dateParse : String → Option ℚ) (a b : Movie) : Prop :=
  comparators dateParse SortOptionValue.vote_average_desc a b ≤ 0

instance scoreDescRelDecidable (dateParse : String → Option ℚ) :
    DecidableRel (scoreDescRel dateParse) :=
  fun _a _b => inferInstanceAs (Decidable (_ ≤ _))

/-- A sample credential entry, parsed: both required fields present/truthy. -/
def sampleGoodUser : Json :=
  Json.obj [("id", Json.str "a@b.c"), ("password", Json.str "k")]

/-- A sample credential entry missing its `password` field. -/
def sampleBadUser : Json := Json.obj [("id", Json.str "a@b.c")]

/-- A parse function (model of `JSON.parse`) returning a user array with one
malformed entry. -/
def sampleUsersParse : String → Option Json :=
  fun _ => some (Json.arr [sampleBadUser, sampleGoodUser])

/-- A sample wishlist entry, parsed: numeric `id`, truthy `title`. -/
def sampleGoodWish : Json :=
  Json.obj [("id", Json.num 5), ("title", Json.str "t")]

/-- A sample wishlist entry whose `id` is not a number. -/
def sampleBadWish : Json :=
  Json.obj [("id", Json.str "5"), ("title", Json.str "t")]

/-- A parse function returning a wishlist array with one malformed entry. -/
def sampleWishParse : String → Option Json :=
  fun _ => some (Json.arr [sampleBadWish, sampleGoodWish])

/-- A sample movie with a given id and score, all other fields defaulted. -/
def sampleMovie (i : ℚ) (v : Option ℚ) : Movie :=
  ⟨i, "t", none, "", none, none, v, none, none⟩

/-- C1 (counterexample): the route-guard decision does not depend only on the
persisted flag — with the in-memory authentication flag set and the persisted
`isLogin` key absent, the guard grants access even though the persisted flag
does not read `"true"`. -/
theorem c1_route_guard_counterexample :
    protectedRouteAllowed true none = true ∧ isLoggedIn none = false := by
  decide

/-- C1 (amended): the route guard grants access if and only if the in-memory
authentication flag is set or the persisted `isLogin` value reads exactly
`"true"`; in particular a stale in-memory value can grant access on its own,
and only when the in-memory flag is false does the decision reduce to the
persisted flag. -/
theorem c1_route_guard_amended (isAuthenticated : Bool) (storedIsLogin : Option String) :
    protectedRouteAllowed isAuthenticated storedIsLogin = true ↔
      (isAuthenticated = true ∨ storedIsLogin = some "true") := by
  simp [protectedRouteAllowed, isLoggedIn]

/-- C1 (amended, witness): with the in-memory flag false and the persisted
flag `"true"`, access is granted. -/
theorem c1_route_guard_amended_witness :
    protectedRouteAllowed false (some "true") = true :=
  (c1_route_guard_amended false (some "true")).mpr (Or.inr rfl)

/-- C3 (counterexample): toggling an entry that sits in the middle of the
wishlist twice does not restore the original order — the entry is removed and
then re-prepended at the front. -/
theorem c3_toggle_involution_counterexample :
    toggleWishlist (toggleWishlist
        [⟨1, "a", none⟩, ⟨2, "e", none⟩, ⟨3, "b", none⟩] ⟨2, "e", none⟩) ⟨2, "e", none⟩ =
      [⟨2, "e", none⟩, ⟨1, "a", none⟩, ⟨3, "b", none⟩] ∧
    toggleWishlist (toggleWishlist
        [⟨1, "a", none⟩, ⟨2, "e", none⟩, ⟨3, "b", none⟩] ⟨2, "e", none⟩) ⟨2, "e", none⟩ ≠
      [⟨1, "a", none⟩, ⟨2, "e", none⟩, ⟨3, "b", none⟩] := by
  decide

/-- C3 (amended): toggling the same entry twice restores the collection
exactly when no entry with that id was present initially; when an entry with
that id is present, the double toggle instead yields the toggled entry
prepended to the list with all matching-id entries removed. -/
theorem c3_toggle_involution_amended (l : List WishlistEntry) (e : WishlistEntry) :
    (l.any (fun item => item.id == e.id) = false →
      toggleWishlist (toggleWishlist l e) e = l) ∧
    (l.any (fun item => item.id == e.id) = true →
      toggleWishlist (toggleWishlist l e) e =
        e :: l.filter (fun item => item.id != e.id)) := by
  constructor
  · intro h
    have h1 : toggleWishlist l e = e :: l := by simp [toggleWishlist, h]
    rw [h1]
    have h2 : (e :: l).any (fun item => item.id == e.id) = true := by simp
    have hall : ∀ item ∈ l, ¬ (item.id == e.id) = true := by
      simpa [List.any_eq_false] using h
    have h3 : l.filter (fun item => item.id != e.id) = l := by
      refine List.filter_eq_self.mpr (fun a ha => ?_)
      simpa using hall a ha
    simp [toggleWishlist, h2, h3]
  · intro h
    have h1 : toggleWishlist l e = l.filter (fun item => item.id != e.id) := by
      simp [toggleWishlist, h]
    rw [h1]
    have h2 : (l.filter (fun item => item.id != e.id)).any
        (fun item => item.id == e.id) = false := by
      rw [List.any_eq_false]
      intro x hx
      have hk := (List.mem_filter.mp hx).2
      simpa using hk
    simp [toggleWishlist, h2]

/-- C3 (amended, witness): double toggle restores a list without the id, and
front-loads the entry when the id was present. -/
theorem c3_toggle_involution_amended_witness :
    toggleWishlist (toggleWishlist [⟨1, "a", none⟩] ⟨2, "e", none⟩) ⟨2, "e", none⟩ =
      [⟨1, "a", none⟩] ∧
    toggleWishlist (toggleWishlist [⟨2, "e", none⟩, ⟨1, "a", none⟩] ⟨2, "e", none⟩)
        ⟨2, "e", none⟩ =
      (⟨2, "e", none⟩ : WishlistEntry) ::
        List.filter (fun item => item.id != (2 : Int))
          [⟨2, "e", none⟩, ⟨1, "a", none⟩] :=
  ⟨(c3_toggle_involution_amended [⟨1, "a", none⟩] ⟨2, "e", none⟩).1 (by decide),
   (c3_toggle_involution_amended [⟨2, "e", none⟩, ⟨1, "a", none⟩] ⟨2, "e", none⟩).2
     (by decide)⟩

/-- C4: toggling an absent entry prepends it (newest first) and toggling a
present entry removes every entry with that id; concretely, from the empty
wishlist, toggling entry 5 then entry 7 yields [7, 5], and toggling entry 5
again yields [7]. -/
theorem c4_toggle_newest_first (l : List WishlistEntry) (e : WishlistEntry) :
    (l.any (fun item => item.id == e.id) = false → toggleWishlist l e = e :: l) ∧
    (l.any (fun item => item.id == e.id) = true →
      toggleWishlist l e = l.filter (fun item => item.id != e.id)) ∧
    toggleWishlist (toggleWishlist [] entry5) entry7 = [entry7, entry5] ∧
    toggleWishlist (toggleWishlist (toggleWishlist [] entry5) entry7) entry5 =
      [entry7] := by
  refine ⟨fun h => by simp [toggleWishlist, h],
          fun h => by simp [toggleWishlist, h], by decide, by decide⟩

/-- C4 (witness): both branch hypotheses hold at concrete inputs. -/
theorem c4_toggle_newest_first_witness :
    toggleWishlist [entry5] entry7 = [entry7, entry5] ∧
    toggleWishlist [entry7, entry5] entry5 =
      List.filter (fun item => item.id != entry5.id) [entry7, entry5] :=
  ⟨(c4_toggle_newest_first [entry5] entry7).1 (by decide),
   (c4_toggle_newest_first [entry7, entry5] entry5).2.1 (by decide)⟩

/-- C5: each toggle preserves the wishlist invariant that ids are pairwise
distinct — removal only deletes entries, and prepending happens only when no
entry with the toggled id exists. -/
theorem c5_toggle_preserves_unique_ids (l : List WishlistEntry) (e : WishlistEntry)
    (h : (l.map WishlistEntry.id).Nodup) :
    ((toggleWishlist l e).map WishlistEntry.id).Nodup := by
  unfold toggleWishlist
  by_cases hc : l.any (fun item => item.id == e.id) = true
  · rw [if_pos hc]
    exact ((List.filter_sublist l).map WishlistEntry.id).nodup h
  · rw [if_neg hc]
    rw [List.map_cons]
    refine List.Nodup.cons ?_ h
    intro hmem
    rcases List.mem_map.mp hmem with ⟨x, hx, hxid⟩
    have hall : ∀ item ∈ l, ¬ (item.id == e.id) = true := by
      simpa [List.any_eq_false] using (Bool.not_eq_true _).mp hc
    have hne : x.id ≠ e.id := by simpa using hall x hx
    exact hne hxid

/-- C5 (witness): the invariant is preserved on a concrete distinct-id list. -/
theorem c5_toggle_preserves_unique_ids_witness :
    ((toggleWishlist [entry5, entry7] entry5).map WishlistEntry.id).Nodup :=
  c5_toggle_preserves_unique_ids [entry5, entry7] entry5 (by decide)

/-- C10: when storage is unavailable `getStoredTheme` returns `dark` and
leaves the stored value alone; when the stored value is exactly `"light"` or
`"dark"` it returns that theme and leaves storage unchanged; for any other
stored value (including an absent key) it returns `dark` and overwrites the
`theme` key with `"dark"`. -/
theorem c10_getStoredTheme_effect (stored : Option String) :
    getStoredTheme false stored = (ThemePreference.dark, stored) ∧
    (stored = some "light" →
      getStoredTheme true stored = (ThemePreference.light, stored)) ∧
    (stored = some "dark" →
      getStoredTheme true stored = (ThemePreference.dark, stored)) ∧
    (stored ≠ some "light" → stored ≠ some "dark" →
      getStoredTheme true stored = (ThemePreference.dark, some "dark")) := by
  refine ⟨rfl, fun h => by subst h; rfl, fun h => by subst h; rfl, fun h1 h2 => ?_⟩
  simp [getStoredTheme, h1, h2]

/-- C10 (witness): recognized values are kept; an unrecognized value is
rewritten to `"dark"`. -/
theorem c10_getStoredTheme_effect_witness :
    getStoredTheme true (some "light") = (ThemePreference.light, some "light") ∧
    getStoredTheme true (some "system") = (ThemePreference.dark, some "dark") :=
  ⟨(c10_getStoredTheme_effect (some "light")).2.1 rfl,
   (c10_getStoredTheme_effect (some "system")).2.2.2 (by decide) (by decide)⟩

/-- C8: when no credential is resolvable — nothing passed in and nothing in
the persisted session, after trimming whitespace — the `useMovies` effect
short-circuits to the error state (`errorOut`): movies set to `[]`, loading
set to `false`, the missing-credential message set, and no network call
issued (the `startFetch` branch is never taken). -/
theorem c8_useMovies_missing_credential (optionsTmdbKey storedTmdbKey : Option String)
    (hopt : ∀ s, optionsTmdbKey = some s → jsTrim s = "")
    (hstored : ∀ s, storedTmdbKey = some s → jsTrim s = "") :
    useMoviesInitialAction optionsTmdbKey storedTmdbKey =
      FetchAction.errorOut [] false useMoviesMissingKeyMessage := by
  unfold useMoviesInitialAction getStoredTmdbKey
  have h0 : jsTrim "" = "" := rfl
  cases optionsTmdbKey with
  | some s =>
    have h := hopt s rfl
    simp [h, h0]
  | none =>
    cases storedTmdbKey with
    | none => rfl
    | some s =>
      have h := hstored s rfl
      simp [h, h0]

/-- C8 (witness): a whitespace-only passed-in key with no persisted key
yields the error state. -/
theorem c8_useMovies_missing_credential_witness :
    useMoviesInitialAction (some "   ") none =
      FetchAction.errorOut [] false useMoviesMissingKeyMessage :=
  c8_useMovies_missing_credential (some "   ") none
    (fun s hs => by injection hs with h; rw [← h]; rfl)
    (fun s hs => Option.noConfusion hs)

/-- C2: the sign-up registration normalizes the identifier (trim + lowercase)
before comparison; it fails with the already-registered message exactly when
an entry with the normalized identifier is persisted, leaves the collection
unchanged on failure, appends the new entry (with trimmed secret) and
persists the full collection on success, and a second registration of any
identifier with the same normalization always fails. -/
theorem c2_register_normalized (users : List StoredUser) (email password : String) :
    ((handleSignUpRegister users email password).1 =
        RegisterResult.failure "That email is already registered." ↔
      ∃ u ∈ users, u.id = normalizeEmail email) ∧
    ((∃ u ∈ users, u.id = normalizeEmail email) →
      (handleSignUpRegister users email password).2 = users) ∧
    ((¬ ∃ u ∈ users, u.id = normalizeEmail email) →
      handleSignUpRegister users email password =
        (RegisterResult.success, users ++ [⟨normalizeEmail email, jsTrim password⟩])) ∧
    (∀ email2 password2, normalizeEmail email2 = normalizeEmail email →
      (handleSignUpRegister (handleSignUpRegister users email password).2
          email2 password2).1 =
        RegisterResult.failure "That email is already registered.") := by
  have hany : ∀ (us : List StoredUser) (e : String),
      us.any (fun user => user.id == e) = true ↔ ∃ u ∈ us, u.id = e := by
    intro us e
    simp [List.any_eq_true]
  by_cases hex : ∃ u ∈ users, u.id = normalizeEmail email
  · have ht : users.any (fun user => user.id == normalizeEmail email) = true :=
      (hany users (normalizeEmail email)).mpr hex
    have heq : handleSignUpRegister users email password =
        (RegisterResult.failure "That email is already registered.", users) := by
      unfold handleSignUpRegister registerUser
      rw [if_pos ht]
    have hsnd : (handleSignUpRegister users email password).2 = users := by
      rw [heq]
    refine ⟨⟨fun _ => hex, fun _ => by rw [heq]⟩, fun _ => hsnd,
            fun hnot => absurd hex hnot, fun email2 password2 h2 => ?_⟩
    rw [hsnd]
    have ht2 : users.any (fun user => user.id == normalizeEmail email2) = true := by
      rw [h2]; exact ht
    unfold handleSignUpRegister registerUser
    rw [if_pos ht2]
  · have hf : users.any (fun user => user.id == normalizeEmail email) = false :=
      Bool.not_eq_true _ |>.mp (fun h => hex ((hany users (normalizeEmail email)).mp h))
    have heq : handleSignUpRegister users email password =
        (RegisterResult.success,
          users ++ [⟨normalizeEmail email, jsTrim password⟩]) := by
      unfold handleSignUpRegister registerUser
      rw [if_neg ((Bool.not_eq_true _).mpr hf)]
    refine ⟨⟨fun hfail => ?_, fun hx => absurd hx hex⟩, fun hx => absurd hx hex,
            fun _ => heq, fun email2 password2 h2 => ?_⟩
    · rw [heq] at hfail
      exact absurd hfail (by simp)
    · have hsnd : (handleSignUpRegister users email password).2 =
          users ++ [⟨normalizeEmail email, jsTrim password⟩] := by rw [heq]
      rw [hsnd]
      have hm : (⟨normalizeEmail email, jsTrim password⟩ : StoredUser) ∈
          users ++ [⟨normalizeEmail email, jsTrim password⟩] :=
        List.mem_append_right users (List.mem_singleton_self _)
      have ht2 : (users ++ [(⟨normalizeEmail email, jsTrim password⟩ : StoredUser)]).any
          (fun user => user.id == normalizeEmail email2) = true :=
        (hany _ (normalizeEmail email2)).mpr ⟨_, hm, h2.symm⟩
      unfold handleSignUpRegister registerUser
      rw [if_pos ht2]

/-- C2 (witness): registering a fresh email appends its normalized form;
re-registering a differently-cased, differently-spaced variant fails; a
failing registration leaves the collection unchanged. -/
theorem c2_register_normalized_witness :
    handleSignUpRegister ([] : List StoredUser) " Foo@Bar.com" "key1" =
      (RegisterResult.success, [⟨"foo@bar.com", "key1"⟩]) ∧
    (handleSignUpRegister (handleSignUpRegister [] " Foo@Bar.com" "key1").2
        "FOO@bar.com  " "key2").1 =
      RegisterResult.failure "That email is already registered." ∧
    (handleSignUpRegister [⟨"foo@bar.com", "k"⟩] "foo@bar.com" "key3").2 =
      [⟨"foo@bar.com", "k"⟩] := by
  refine ⟨?_, ?_, ?_⟩
  · exact ((c2_register_normalized [] " Foo@Bar.com" "key1").2.2.1
      (by decide)).trans (by decide)
  · exact (c2_register_normalized [] " Foo@Bar.com" "key1").2.2.2
      "FOO@bar.com  " "key2" (by decide)
  · exact (c2_register_normalized [⟨"foo@bar.com", "k"⟩] "foo@bar.com" "key3").2.1
      (by decide)

/-- C6: authentication succeeds — returning the stored secret, which must
equal the submitted one — exactly when some persisted entry matches both the
identifier and the secret; otherwise (including an absent identifier) it
returns the invalid-credentials failure, and no other outcome is possible. -/
theorem c6_authenticate_exact_match (users : List StoredUser) (email password : String) :
    (authenticateUser users email password = AuthResult.success password ↔
      ∃ u ∈ users, u.id = email ∧ u.password = password) ∧
    ((¬ ∃ u ∈ users, u.id = email ∧ u.password = password) →
      authenticateUser users email password =
        AuthResult.failure "Invalid credentials provided.") := by
  cases hfind : users.find? (fun user => user.id == email && user.password == password) with
  | none =>
    have hno : ∀ u ∈ users, ¬ (u.id = email ∧ u.password = password) := by
      intro u hu hc
      have := List.find?_eq_none.mp hfind u hu
      simp [hc.1, hc.2] at this
    constructor
    · constructor
      · intro h
        rw [authenticateUser, hfind] at h
        exact absurd h (by simp)
      · rintro ⟨u, hu, hc⟩
        exact absurd hc (hno u hu)
    · intro _
      rw [authenticateUser, hfind]
  | some m =>
    have hp := List.find?_some hfind
    have hmem := List.mem_of_find?_eq_some hfind
    have hid : m.id = email := by
      have := (Bool.and_eq_true _ _).mp hp |>.1
      simpa using this
    have hpw : m.password = password := by
      have := (Bool.and_eq_true _ _).mp hp |>.2
      simpa using this
    have hsucc : authenticateUser users email password = AuthResult.success password := by
      rw [authenticateUser, hfind]
      exact congrArg AuthResult.success hpw
    constructor
    · exact ⟨fun _ => ⟨m, hmem, hid, hpw⟩, fun _ => hsucc⟩
    · intro hno
      exact absurd ⟨m, hmem, hid, hpw⟩ hno

/-- C6 (witness): the exact pair succeeds with the stored secret; a wrong
secret fails with the invalid-credentials message. -/
theorem c6_authenticate_exact_match_witness :
    authenticateUser [⟨"a@b.c", "k1"⟩] "a@b.c" "k1" = AuthResult.success "k1" ∧
    authenticateUser [⟨"a@b.c", "k1"⟩] "a@b.c" "nope" =
      AuthResult.failure "Invalid credentials provided." :=
  ⟨(c6_authenticate_exact_match [⟨"a@b.c", "k1"⟩] "a@b.c" "k1").1.mpr (by decide),
   (c6_authenticate_exact_match [⟨"a@b.c", "k1"⟩] "a@b.c" "nope").2 (by decide)⟩

/-- C7: reading the persisted credential collection or wishlist is total and
degrades to the empty collection on malformed data — an absent value, a value
whose parse throws, or a parsed value that is not an array all yield `[]`,
and every entry the reads keep has its required fields present (truthy
`id`/`password` for users; numeric `id` and truthy `title` for the
wishlist), so malformed entries are dropped rather than causing an error. -/
theorem c7_read_malformed_safe (parse : String → Option Json) (raw : Option String) :
    (readUsers parse none = [] ∧ readWishlist parse none = []) ∧
    (∀ s, raw = some s → parse s = none →
      readUsers parse raw = [] ∧ readWishlist parse raw = []) ∧
    (∀ s j, raw = some s → parse s = some j → j.isArr = false →
      readUsers parse raw = [] ∧ readWishlist parse raw = []) ∧
    (∀ e ∈ readUsers parse raw,
      jsTruthy (e.getField "id") = true ∧ jsTruthy (e.getField "password") = true) ∧
    (∀ e ∈ readWishlist parse raw,
      jsIsNumberJson (e.getField "id") = true ∧ jsTruthy (e.getField "title") = true) := by
  refine ⟨⟨rfl, rfl⟩, ?_, ?_, ?_, ?_⟩
  · rintro s rfl hp
    by_cases hs : s = ""
    · subst hs; exact ⟨rfl, rfl⟩
    · exact ⟨by simp [readUsers, hs, hp], by simp [readWishlist, hs, hp]⟩
  · rintro s j rfl hp harr
    by_cases hs : s = ""
    · subst hs; exact ⟨rfl, rfl⟩
    · cases j with
      | arr items => simp [Json.isArr] at harr
      | null => exact ⟨by simp [readUsers, hs, hp], by simp [readWishlist, hs, hp]⟩
      | bool b => exact ⟨by simp [readUsers, hs, hp], by simp [readWishlist, hs, hp]⟩
      | num n => exact ⟨by simp [readUsers, hs, hp], by simp [readWishlist, hs, hp]⟩
      | str t => exact ⟨by simp [readUsers, hs, hp], by simp [readWishlist, hs, hp]⟩
      | obj fields => exact ⟨by simp [readUsers, hs, hp], by simp [readWishlist, hs, hp]⟩
  · intro e he
    cases raw with
    | none => simp [readUsers] at he
    | some s =>
      by_cases hs : s = ""
      · subst hs; simp [readUsers] at he
      · cases hp : parse s with
        | none => simp [readUsers, hs, hp] at he
        | some j =>
          cases j <;> simp [readUsers, hs, hp, List.mem_filter] at he
          exact ⟨he.2.1, he.2.2⟩
  · intro e he
    cases raw with
    | none => simp [readWishlist] at he
    | some s =>
      by_cases hs : s = ""
      · subst hs; simp [readWishlist] at he
      · cases hp : parse s with
        | none => simp [readWishlist, hs, hp] at he
        | some j =>
          cases j <;> simp [readWishlist, hs, hp, List.mem_filter] at he
          exact ⟨he.2.1, he.2.2⟩

/-- C7 (witness): a throwing parse and a non-array parse both read as empty,
and the entries the sample reads keep have their required fields. -/
theorem c7_read_malformed_safe_witness :
    (readUsers (fun _ => none) (some "oops") = [] ∧
      readWishlist (fun _ => none) (some "oops") = []) ∧
    (readUsers (fun _ => some (Json.num 3)) (some "3") = [] ∧
      readWishlist (fun _ => some (Json.num 3)) (some "3") = []) ∧
    (jsTruthy (sampleGoodUser.getField "id") = true ∧
      jsTruthy (sampleGoodUser.getField "password") = true) ∧
    (jsIsNumberJson (sampleGoodWish.getField "id") = true ∧
      jsTruthy (sampleGoodWish.getField "title") = true) := by
  refine ⟨?_, ?_, ?_, ?_⟩
  · exact (c7_read_malformed_safe (fun _ => none) (some "oops")).2.1 "oops" rfl rfl
  · exact (c7_read_malformed_safe (fun _ => some (Json.num 3)) (some "3")).2.2.1 "3"
      (Json.num 3) rfl rfl rfl
  · exact (c7_read_malformed_safe sampleUsersParse (some "x")).2.2.2.1 sampleGoodUser
      (List.mem_singleton_self _)
  · exact (c7_read_malformed_safe sampleWishParse (some "x")).2.2.2.2 sampleGoodWish
      (List.mem_singleton_self _)

/-- The descending-score relation agrees with comparing the scores: the
`vote_average.desc` comparator is nonpositive exactly when the right score is
at most the left score. -/
theorem scoreDescRel_iff (dateParse : String → Option ℚ) (a b : Movie) :
    scoreDescRel dateParse a b ↔
      valueOrZero b.vote_average ≤ valueOrZero a.vote_average := by
  simp [scoreDescRel, comparators, sub_nonpos]

/-- Under the minimum-score filter spec the pipeline reduces to the stable
sort of the score filter: genre and year filters are skipped, the rating
filter applies, and the sort uses the descending-score relation. -/
theorem applyFilterPipeline_minScore_eq (dateParse : String → Option ℚ)
    (jsNumber : String → Option ℚ) (source : List Movie) :
    applyFilterPipeline dateParse jsNumber source minScoreFilters =
      List.insertionSort (scoreDescRel dateParse)
        (source.filter (fun m => decide (valueOrZero m.vote_average ≥ 7))) := rfl

/-- C9: with the minimum-score filter of 7.0 and descending-score sort, the
pipeline's output contains exactly the input items with score at least 7 (as
a permutation of the score filter, so multiplicities agree), is sorted
descending by score, and is stable — for every score value, the output's
items with that score appear exactly as in the input's order.  The pipeline
is a pure function of the list and the filter spec (the embedding is a total
function on an immutable list, mirroring the `slice()` copy before sort). -/
theorem c9_filter_pipeline (dateParse : String → Option ℚ) (jsNumber : String → Option ℚ)
    (source : List Movie) :
    (∀ m : Movie,
      m ∈ applyFilterPipeline dateParse jsNumber source minScoreFilters ↔
        m ∈ source ∧ 7 ≤ valueOrZero m.vote_average) ∧
    (applyFilterPipeline dateParse jsNumber source minScoreFilters).Perm
      (source.filter (fun m => decide (valueOrZero m.vote_average ≥ 7))) ∧
    (applyFilterPipeline dateParse jsNumber source minScoreFilters).Pairwise
      (fun a b => valueOrZero b.vote_average ≤ valueOrZero a.vote_average) ∧
    (∀ k : ℚ,
      (applyFilterPipeline dateParse jsNumber source minScoreFilters).filter
          (fun m => decide (valueOrZero m.vote_average = k)) =
        (source.filter (fun m => decide (valueOrZero m.vote_average ≥ 7))).filter
          (fun m => decide (valueOrZero m.vote_average = k))) := by
  have hout := applyFilterPipeline_minScore_eq dateParse jsNumber source
  haveI : IsTrans Movie (scoreDescRel dateParse) := ⟨fun a b c hab hbc =>
    (scoreDescRel_iff dateParse a c).mpr
      (le_trans ((scoreDescRel_iff dateParse b c).mp hbc)
        ((scoreDescRel_iff dateParse a b).mp hab))⟩
  haveI : IsTotal Movie (scoreDescRel dateParse) := ⟨fun a b =>
    (le_total (valueOrZero b.vote_average) (valueOrZero a.vote_average)).imp
      ((scoreDescRel_iff dateParse a b).mpr) ((scoreDescRel_iff dateParse b a).mpr)⟩
  have hperm : (applyFilterPipeline dateParse jsNumber source minScoreFilters).Perm
      (source.filter (fun m => decide (valueOrZero m.vote_average ≥ 7))) := by
    rw [hout]
    exact List.perm_insertionSort _ _
  refine ⟨?_, hperm, ?_, ?_⟩
  · intro m
    rw [hperm.mem_iff, List.mem_filter]
    simp [ge_iff_le]
  · rw [hout]
    exact (List.sorted_insertionSort (scoreDescRel dateParse) _).imp
      (fun h => (scoreDescRel_iff dateParse _ _).mp h)
  · intro k
    rw [hout]
    set F := source.filter (fun m => decide (valueOrZero m.vote_average ≥ 7)) with hF
    set keyP : Movie → Bool := fun m => decide (valueOrZero m.vote_average = k) with hkeyP
    have hckey : ∀ m ∈ F.filter keyP, valueOrZero m.vote_average = k := by
      intro m hm
      have h2 := (List.mem_filter.mp hm).2
      simpa [hkeyP] using h2
    have h1 : (F.filter keyP).Pairwise (scoreDescRel dateParse) := by
      refine List.pairwise_of_forall_mem_list ?_
      intro a ha b hb
      exact (scoreDescRel_iff dateParse a b).mpr (by rw [hckey a ha, hckey b hb])
    have h3 : (F.filter keyP).Sublist (List.insertionSort (scoreDescRel dateParse) F) :=
      List.sublist_insertionSort h1 (List.filter_sublist F)
    have h4 : (F.filter keyP).filter keyP = F.filter keyP :=
      List.filter_eq_self.mpr (fun a ha => (List.mem_filter.mp ha).2)
    have h5 : (F.filter keyP).Sublist
        ((List.insertionSort (scoreDescRel dateParse) F).filter keyP) := by
      have hsub := List.Sublist.filter keyP h3
      rwa [h4] at hsub
    have h6 : ((List.insertionSort (scoreDescRel dateParse) F).filter keyP).Perm
        (F.filter keyP) := (List.perm_insertionSort (scoreDescRel dateParse) F).filter keyP
    exact (h5.eq_of_length h6.length_eq.symm).symm

/-- C9 (witness): on a concrete list, an item with score 8 is kept by the
minimum-score pipeline and an item with score 3 is dropped. -/
theorem c9_filter_pipeline_witness :
    sampleMovie 1 (some 8) ∈
      applyFilterPipeline (fun _ => none) (fun _ => none)
        [sampleMovie 1 (some 8), sampleMovie 2 (some 3)] minScoreFilters ∧
    sampleMovie 2 (some 3) ∉
      applyFilterPipeline (fun _ => none) (fun _ => none)
        [sampleMovie 1 (some 8), sampleMovie 2 (some 3)] minScoreFilters := by
  constructor
  · exact ((c9_filter_pipeline (fun _ => none) (fun _ => none)
      [sampleMovie 1 (some 8), sampleMovie 2 (some 3)]).1 (sampleMovie 1 (some 8))).mpr
      ⟨by simp, by decide⟩
  · intro hmem
    have hin := ((c9_filter_pipeline (fun _ => none) (fun _ => none)
      [sampleMovie 1 (some 8), sampleMovie 2 (some 3)]).1 (sampleMovie 2 (some 3))).mp hmem
    exact absurd hin.2 (by decide)
